import Mathlib

/-!
# Verification of the election-app hub-and-spoke cache

Shallow embedding of `src/app.py` (the hub/poller, cache store, parsers and
HTTP readers) and `src/manual/app/app-reboot1.py` (the supervisor/watchdog),
with theorems settling the specification claims about them.

Conventions of the embedding:
* Python `float` timestamps are modelled as `ℚ`; all `time.time()` reads
  inside one `_fetch_state` call are modelled as the single instant `now`.
* Python dicts (insertion ordered) are modelled as association lists with
  in-place update / append-on-missing semantics (`upd`, `alookup`).
* The single `requests.get` performed by a fetch is modelled by consuming the
  head of an oracle list of `HttpOutcome`s; the number of consumed outcomes is
  the number of upstream attempts.
* The wall-clock string stored in a log event (`_now_iso`) is not modelled; no
  claim mentions it.
-/

namespace ElectionApp

/-- Association-list lookup mirroring Python `dict.get`. -/
def alookup {α : Type} : List (String × α) → String → Option α
  | [], _ => none
  | (k, v) :: rest, q => if k = q then some v else alookup rest q

/-- Association-list write mirroring Python `d[k] = v` on an insertion-ordered
dict: replace in place if the key exists, else append at the end. -/
def upd {α : Type} : List (String × α) → String → α → List (String × α)
  | [], k, v => [(k, v)]
  | (k', v') :: rest, k, v =>
      if k' = k then (k, v) :: rest else (k', v') :: upd rest k v

/-- Python `str.zfill(width)`: left-pad with `'0'` to `width`, keeping a
leading sign character in front of the padding. -/
def zfill (width : Nat) (s : String) : String :=
  if width ≤ s.length then s
  else
    let pad := List.replicate (width - s.length) '0'
    match s.data with
    | [] => String.mk pad
    | c :: rest =>
        if c = '+' ∨ c = '-' then String.mk (c :: (pad ++ rest))
        else String.mk (pad ++ (c :: rest))

/-- Python `str.isdigit` restricted to ASCII: nonempty and all digits. -/
def pyIsDigit (s : String) : Bool :=
  !s.data.isEmpty && s.data.all Char.isDigit

/-- Digit run of CPython `int(str)`: digits with single underscores allowed
between digits (never leading, trailing, or doubled). -/
def pyIntDigits : List Char → Nat → Option Nat
  | [], acc => some acc
  | '_' :: c :: rest, acc =>
      if c.isDigit then pyIntDigits rest (acc * 10 + (c.toNat - 48)) else none
  | c :: rest, acc =>
      if c.isDigit then pyIntDigits rest (acc * 10 + (c.toNat - 48)) else none

/-- Model of CPython `int(str)` (ASCII scope): strip surrounding whitespace,
optional sign, then a nonempty digit run (underscore separators allowed);
`none` models the `ValueError` raised on any other input. -/
def pyInt? (s : String) : Option Int :=
  let t := s.trim
  let (sign, ds) : Int × List Char :=
    match t.data with
    | '+' :: r => (1, r)
    | '-' :: r => (-1, r)
    | r => (1, r)
  match ds with
  | [] => none
  | c :: _ =>
      if c.isDigit then (pyIntDigits ds 0).map (fun n => sign * (n : Int))
      else none

/-- Stable insertion sort by a boolean `le`, modelling Python's stable
`list.sort(key=...)`. -/
def insertBy {α : Type} (le : α → α → Bool) (x : α) : List α → List α
  | [] => [x]
  | y :: ys => if le y x then y :: insertBy le x ys else x :: y :: ys

def sortBy {α : Type} (le : α → α → Bool) : List α → List α
  | [] => []
  | x :: xs => insertBy le x (sortBy le xs)

/-! ## Data model (src/app.py globals `_cache`, `_stats`, `_inflight`) -/

/-- Tunable `MIN_STATE_REFRESH_SEC` at its default (15 seconds). -/
def MIN_STATE_REFRESH_SEC : ℚ := 15

/-- One candidate row as built by the parsers
(`{"name": ..., "party": ..., "votes": ...}`). -/
structure Cand where
  name : String
  party : String
  votes : Int
  deriving DecidableEq

/-- One county record as built by `_parse_state_ru`. -/
structure County where
  state : String
  fips : String
  name : String
  candidates : List Cand
  total : Int
  deriving DecidableEq

/-- One district record as built by `_parse_house_ru`. -/
structure District where
  state : String
  district_id : String
  district_num : String
  name : String
  candidates : List Cand
  total : Int
  deriving DecidableEq

/-- The per-state payload of a combo bucket: `"counties"` for P/S/G,
`"districts"` for H. -/
inductive BlobData where
  | counties (cs : List (String × County))
  | districts (ds : List (String × District))
  deriving DecidableEq

/-- `bucket["states"][usps]` as written by `_fetch_state`. -/
structure StateBlob where
  updated : ℚ
  office : String
  data : BlobData
  deriving DecidableEq

/-- `_cache["cache_by_combo"][combo]`. -/
structure Bucket where
  states : List (String × StateBlob)
  updated : ℚ
  deriving DecidableEq

/-- `_stats["per_combo_state"][pk]`; the defaults mirror the `.get(_, 0)` /
`setdefault` reads of fields that may be absent in the Python dict. -/
structure PerKeyStats where
  last_fetch : ℚ := 0
  ok : Nat := 0
  err : Nat := 0
  deriving DecidableEq

instance : Inhabited PerKeyStats := ⟨{}⟩

/-- One entry of the bounded log ring (`_cache["log"]`); the wall-clock
string field `ts` is not modelled. -/
structure LogEvent where
  seq : Nat
  lvl : String
  msg : String
  deriving DecidableEq

/-- The whole mutable state of `src/app.py`: `_cache`, `_stats`, `_log_seq`
and `_inflight` together. -/
structure Hub where
  cache_by_combo : List (String × Bucket)
  last_cycle_end : ℚ
  logRing : List LogEvent
  logSeq : Nat
  upstream_calls : Nat
  upstream_bytes : Nat
  errors : Nat
  per_combo_state : List (String × PerKeyStats)
  inflight : List String
  deriving DecidableEq

/-- The initial (cold) state of the module globals. -/
def hub0 : Hub :=
  { cache_by_combo := [], last_cycle_end := 0, logRing := [], logSeq := 0,
    upstream_calls := 0, upstream_bytes := 0, errors := 0,
    per_combo_state := [], inflight := [] }

/-- `log(msg, lvl)`: bump `_log_seq`, append to the `deque(maxlen=4000)`
(dropping from the left past 4000). -/
def logMsg (st : Hub) (lvl msg : String) : Hub :=
  let r := st.logRing ++ [⟨st.logSeq + 1, lvl, msg⟩]
  { st with logSeq := st.logSeq + 1, logRing := r.drop (r.length - 4000) }

/-- Replay a list of `(lvl, msg)` appends through `log`. -/
def applyLogs (msgs : List (String × String)) (st : Hub) : Hub :=
  msgs.foldl (fun s p => logMsg s p.1 p.2) st

/-- `_combo_key`. -/
def comboKey (office race_type : String) : String :=
  office.toUpper ++ ":" ++ race_type

/-- `_combo_state_key`. -/
def comboStateKey (office race_type usps : String) : String :=
  office.toUpper ++ ":" ++ race_type ++ "|" ++ usps

/-- The in-flight set key `f"{combo}|{usps}"` used in `_fetch_state`. -/
def inflightKey (office race_type usps : String) : String :=
  comboKey office race_type ++ "|" ++ usps

/-! ## Decoder input (the XML tree `ET.fromstring` yields) and parsers -/

/-- A `<Candidate>` element: the attributes the parsers read
(`First`, `Last`, `Party`, `VoteCount`), each possibly absent. -/
structure XCand where
  first : Option String := none
  last : Option String := none
  party : Option String := none
  voteCount : Option String := none
  deriving DecidableEq

/-- A `<ReportingUnit>` element with its `<Candidate>` children. -/
structure XRu where
  fips : Option String := none
  districtId : Option String := none
  district : Option String := none
  name : Option String := none
  cands : List XCand := []
  deriving DecidableEq

/-- A well-formed response document: its `ReportingUnit` nodes in order. -/
structure XDoc where
  rus : List XRu
  deriving DecidableEq

/-- Python `a or b` on strings: `b` when `a` is empty. -/
def orElse (a b : String) : String := if a = "" then b else a

/-- `attrib.get(k, dflt)` then `or dflt2` as used throughout the parsers. -/
def attrD (v : Option String) (dflt : String) : String := (v.getD dflt)

/-- `_get_prev_vote_county`: last cached votes for `(state, fips, party)`
under the combo, `none` when no county or party match exists.  The Python
`int(cand.get("votes") or 0)` cannot fail on our typed cache (votes are
ints), so it is the identity here. -/
def getPrevVoteCounty (st : Hub) (usps fips party office race_type : String) :
    Option Int :=
  let combo := comboKey office race_type
  match alookup st.cache_by_combo combo with
  | none => none
  | some bucket =>
      match alookup bucket.states usps with
      | none => none
      | some blob =>
          match blob.data with
          | .districts _ => none
          | .counties cs =>
              match alookup cs fips with
              | none => none
              | some c =>
                  match c.candidates.find? (fun cand => cand.party = party) with
                  | none => none
                  | some cand => some cand.votes

/-- `_get_prev_vote_district`, symmetric to `getPrevVoteCounty`. -/
def getPrevVoteDistrict (st : Hub) (usps did party office race_type : String) :
    Option Int :=
  let combo := comboKey office race_type
  match alookup st.cache_by_combo combo with
  | none => none
  | some bucket =>
      match alookup bucket.states usps with
      | none => none
      | some blob =>
          match blob.data with
          | .counties _ => none
          | .districts ds =>
              match alookup ds did with
              | none => none
              | some d =>
                  match d.candidates.find? (fun cand => cand.party = party) with
                  | none => none
                  | some cand => some cand.votes

/-- The raw `VoteCount` string: `(c.attrib.get("VoteCount", "0") or "0")`. -/
def rawVote (c : XCand) : String := orElse (attrD c.voteCount "0") "0"

/-- The vote value `_parse_state_ru` assigns one candidate: `int(raw)` when it
parses, else the last cached count for the same (state, fips, party) under the
combo, else 0.  The warning `log(...)` calls of the except-branch are returned
as messages by the candidate loop below. -/
def countyVote (st : Hub) (usps fips party office race_type : String)
    (c : XCand) : Int :=
  match pyInt? (rawVote c) with
  | some v => v
  | none => (getPrevVoteCounty st usps fips party office race_type).getD 0

/-- The candidate loop of `_parse_state_ru` for one reporting unit: builds the
candidate list and running `total` (`total += votes` sits outside the
try/except, so substituted values are included), and collects the WARN
messages the except-branch would `log`.  `st` is read-only here: `log` never
writes the cache, so appending the warnings after the loop (as `fetchState`
does) yields the same final state as the inline calls in the source. -/
def countyCandLoop (st : Hub) (usps fips office race_type : String) :
    List XCand → List Cand × Int × List String
  | [] => ([], 0, [])
  | c :: rest =>
      let first := (attrD c.first "").trim
      let last := (attrD c.last "").trim
      let party := (attrD c.party "").trim
      let raw := rawVote c
      let votes := countyVote st usps fips party office race_type c
      let warns :=
        match pyInt? raw with
        | some _ => ([] : List String)
        | none =>
            match getPrevVoteCounty st usps fips party office race_type with
            | some prev =>
                ["Non-numeric VoteCount=" ++ raw ++ " " ++ usps ++ " " ++ fips ++
                 " party=" ++ party ++ " -> using last cached " ++ toString prev]
            | none =>
                ["Non-numeric VoteCount=" ++ raw ++ " " ++ usps ++ " " ++ fips ++
                 " party=" ++ party ++ " -> using 0 (no prior)"]
      let (cs, total, ws) := countyCandLoop st usps fips office race_type rest
      (⟨(first ++ " " ++ last).trim, party, votes⟩ :: cs, votes + total, warns ++ ws)

/-- One `ReportingUnit` of `_parse_state_ru`. -/
def parseCountyRu (st : Hub) (usps office race_type : String) (ru : XRu) :
    String × County × List String :=
  let fips := zfill 5 (orElse (attrD ru.fips "") "")
  let name := orElse (attrD ru.name "") "Unknown"
  let (cands, total, ws) := countyCandLoop st usps fips office race_type ru.cands
  (fips, ⟨usps, fips, name, cands, total⟩, ws)

/-- The reporting-unit loop of `_parse_state_ru`, threading the
`out["counties"]` dict (a later unit with the same FIPS overwrites the
earlier one, as a dict write does). -/
def parseStateRuLoop (st : Hub) (usps office race_type : String)
    (acc : List (String × County)) :
    List XRu → List (String × County) × List String
  | [] => (acc, [])
  | ru :: rest =>
      let (fips, c, ws) := parseCountyRu st usps office race_type ru
      let (res, ws') := parseStateRuLoop st usps office race_type (upd acc fips c) rest
      (res, ws ++ ws')

/-- `_parse_state_ru`: `out["counties"]` plus the WARN messages logged. -/
def parseStateRu (st : Hub) (usps office race_type : String) (doc : XDoc) :
    List (String × County) × List String :=
  parseStateRuLoop st usps office race_type [] doc.rus

/-- The candidate loop of `_parse_house_ru` (fallback keyed by district). -/
def houseCandLoop (st : Hub) (usps did office race_type : String) :
    List XCand → List Cand × Int × List String
  | [] => ([], 0, [])
  | c :: rest =>
      let first := (attrD c.first "").trim
      let last := (attrD c.last "").trim
      let party := (attrD c.party "").trim
      let raw := rawVote c
      let votes :=
        match pyInt? raw with
        | some v => v
        | none => (getPrevVoteDistrict st usps did party office race_type).getD 0
      let warns :=
        match pyInt? raw with
        | some _ => ([] : List String)
        | none =>
            match getPrevVoteDistrict st usps did party office race_type with
            | some prev =>
                ["Non-numeric VoteCount=" ++ raw ++ " " ++ usps ++ " " ++ did ++
                 " party=" ++ party ++ " -> using last cached " ++ toString prev]
            | none =>
                ["Non-numeric VoteCount=" ++ raw ++ " " ++ usps ++ " " ++ did ++
                 " party=" ++ party ++ " -> using 0 (no prior)"]
      let (cs, total, ws) := houseCandLoop st usps did office race_type rest
      (⟨(first ++ " " ++ last).trim, party, votes⟩ :: cs, votes + total, warns ++ ws)

/-- One `ReportingUnit` of `_parse_house_ru`. -/
def parseHouseRu (st : Hub) (usps office race_type : String) (ru : XRu) :
    String × District × List String :=
  let did := (attrD ru.districtId "").trim
  let dnum := (attrD ru.district "").trim
  let name := orElse (attrD ru.name "") ("District " ++ orElse dnum did)
  let key := orElse did dnum
  let (cands, total, ws) := houseCandLoop st usps (orElse did dnum) office race_type ru.cands
  (key, ⟨usps, did, dnum, name, cands, total⟩, ws)

/-- The reporting-unit loop of `_parse_house_ru`. -/
def parseHouseRuLoop (st : Hub) (usps office race_type : String)
    (acc : List (String × District)) :
    List XRu → List (String × District) × List String
  | [] => (acc, [])
  | ru :: rest =>
      let (key, d, ws) := parseHouseRu st usps office race_type ru
      let (res, ws') := parseHouseRuLoop st usps office race_type (upd acc key d) rest
      (res, ws ++ ws')

/-- `_parse_house_ru`: `out["districts"]` plus the WARN messages logged. -/
def parseHouse (st : Hub) (usps office race_type : String) (doc : XDoc) :
    List (String × District) × List String :=
  parseHouseRuLoop st usps office race_type [] doc.rus

/-! ## `_fetch_state` and the poller worker -/

/-- The observable outcome of one `requests.get` call:
`exn` models a raised timeout/transport exception; `resp` carries the HTTP
status, `len(r.content)`, and the body — `none` for a body on which
`ET.fromstring` raises `ParseError`, `some doc` for well-formed XML. -/
inductive HttpOutcome where
  | exn
  | resp (status : Nat) (contentLen : Nat) (body : Option XDoc)
  deriving DecidableEq

/-- Outcomes on which `_fetch_state` takes an error branch before parsing:
the except-branch (`exn`) or a non-200 status. -/
def isFailureOutcome : HttpOutcome → Bool
  | .exn => true
  | .resp status _ _ => status ≠ 200

/-- `_should_refetch`'s read of `per_combo_state[...]["last_fetch"]`
(default 0.0). -/
def lastFetchOf (st : Hub) (office race_type usps : String) : ℚ :=
  ((alookup st.per_combo_state (comboStateKey office race_type usps)).getD default).last_fetch

/-- `_should_refetch`: the cooldown gate `(time.time() - last) >= MIN_STATE_REFRESH_SEC`. -/
def shouldRefetch (now : ℚ) (st : Hub) (office race_type usps : String) : Bool :=
  MIN_STATE_REFRESH_SEC ≤ now - lastFetchOf st office race_type usps

/-- The failure bookkeeping both error branches of `_fetch_state` share:
`_stats["errors"] += 1` and `per_combo_state[pk]["err"] += 1` (entry created
with `setdefault` if missing). -/
def recordFailure (st : Hub) (pk : String) : Hub :=
  let ps := (alookup st.per_combo_state pk).getD default
  { st with errors := st.errors + 1,
            per_combo_state := upd st.per_combo_state pk { ps with err := ps.err + 1 } }

/-- `_ensure_combo_bucket`: `setdefault(combo, {"states": {}, "updated": 0.0})`. -/
def ensureComboBucket (st : Hub) (office race_type : String) : Hub :=
  match alookup st.cache_by_combo (comboKey office race_type) with
  | some _ => st
  | none =>
      { st with cache_by_combo :=
          st.cache_by_combo ++ [(comboKey office race_type, ⟨[], 0⟩)] }

/-- The `finally:` clause — `_inflight.discard(inflight_key)`. -/
def removeInflight (st : Hub) (k : String) : Hub :=
  { st with inflight := st.inflight.erase k }

/-- Decidable equality for the `Except`-valued result field. -/
instance : DecidableEq (Except Unit Bool) := fun a b =>
  match a, b with
  | .ok x, .ok y => if h : x = y then isTrue (by simp [h]) else isFalse (by simp [h])
  | .error x, .error y => isTrue (by cases x; cases y; rfl)
  | .ok _, .error _ => isFalse (by simp)
  | .error _, .ok _ => isFalse (by simp)

/-- The result of one `_fetch_state` call: the Python return value (`.ok b`)
or a propagated exception (`.error ()`, the `ET.ParseError` that nothing in
`_fetch_state` catches), the state after the `finally`, and how many
`requests.get` attempts were made. -/
structure FetchOut where
  result : Except Unit Bool
  st : Hub
  attempts : Nat
  deriving DecidableEq

/-- Append the parser's warning messages through `log`. -/
def logWarns (st : Hub) (ws : List String) : Hub :=
  ws.foldl (fun s m => logMsg s "WARN" m) st

/-- Publish branch of `_fetch_state` (lines 277–301): ensure the combo
bucket, overwrite `bucket["states"][usps]` and `bucket["updated"]`, set
`last_fetch`/`ok` in per-key stats, log the fetch. -/
def publishFetch (now : ℚ) (usps office race_type : String) (data : BlobData)
    (blobOffice : String) (nodes : Nat) (st : Hub) : Hub :=
  let combo := comboKey office race_type
  let pk := comboStateKey office race_type usps
  let st := ensureComboBucket st office race_type
  let bucket := (alookup st.cache_by_combo combo).getD ⟨[], 0⟩
  let bucket' : Bucket :=
    { states := upd bucket.states usps ⟨now, blobOffice, data⟩, updated := now }
  let ps := (alookup st.per_combo_state pk).getD default
  let ps' := { ps with last_fetch := now, ok := ps.ok + 1 }
  let st :=
    { st with cache_by_combo := upd st.cache_by_combo combo bucket',
              per_combo_state := upd st.per_combo_state pk ps' }
  logMsg st "INFO" ("Fetched " ++ combo ++ " " ++ usps ++ ": " ++ toString nodes ++ " units")

/-- The parse-and-store section of `_fetch_state` (lines 271–302): choose the
parser by office, log the parser's warnings, publish.  `st2` is the state
after the stats increments for the received response. -/
def parsePublish (now : ℚ) (usps office race_type : String) (doc : XDoc)
    (st2 : Hub) : FetchOut :=
  if office.toUpper = "H" then
    let (ds, warns) := parseHouse st2 usps office race_type doc
    let st3 := logWarns st2 warns
    let st4 := publishFetch now usps office race_type
      (.districts ds) "H" ds.length st3
    { result := .ok true, st := st4, attempts := 1 }
  else
    let (cs, warns) := parseStateRu st2 usps office race_type doc
    let st3 := logWarns st2 warns
    let st4 := publishFetch now usps office race_type
      (.counties cs) office.toUpper cs.length st3
    { result := .ok true, st := st4, attempts := 1 }

/-- `_fetch_state(usps, office, race_type)`.  `oracle` supplies the outcome
of the (at most one) `requests.get`; an empty oracle behaves as a transport
exception.  Every exit path runs through `removeInflight` (the `finally`). -/
def fetchState (now : ℚ) (oracle : List HttpOutcome)
    (usps office race_type : String) (st : Hub) : FetchOut :=
  let combo := comboKey office race_type
  let ikey := inflightKey office race_type usps
  if ikey ∈ st.inflight then
    { result := .ok false, st := st, attempts := 0 }
  else
    let st1 := { st with inflight := ikey :: st.inflight }
    let out : FetchOut :=
      if ¬ shouldRefetch now st1 office race_type usps then
        let st2 := logMsg st1 "INFO" ("Skip " ++ combo ++ " " ++ usps ++ ": within refresh window (15s)")
        { result := .ok true, st := st2, attempts := 0 }
      else
        match oracle.headD .exn with
        | .exn =>
            let st2 := recordFailure st1 (comboStateKey office race_type usps)
            let st3 := logMsg st2 "WARN" ("Transport error " ++ combo ++ " " ++ usps)
            { result := .ok false, st := st3, attempts := 1 }
        | .resp status clen body =>
            let st2 := { st1 with upstream_calls := st1.upstream_calls + 1,
                                  upstream_bytes := st1.upstream_bytes + clen }
            if status ≠ 200 then
              let st3 := recordFailure st2 (comboStateKey office race_type usps)
              let st4 := logMsg st3 "WARN" ("HTTP " ++ toString status ++ " for " ++ combo ++ " " ++ usps)
              { result := .ok false, st := st4, attempts := 1 }
            else
              match body with
              | none =>
                  -- ET.fromstring raises ParseError; _fetch_state has no
                  -- except for it, so it propagates (through the finally).
                  { result := .error (), st := st2, attempts := 1 }
              | some doc => parsePublish now usps office race_type doc st2
    { out with st := removeInflight out.st ikey }

/-- The cache read `_cache["cache_by_combo"][combo]["states"][usps]`. -/
def cachedBlob (st : Hub) (office race_type usps : String) : Option StateBlob :=
  (alookup st.cache_by_combo (comboKey office race_type)).bind
    (fun b => alookup b.states usps)

/-- `per_combo_state[pk]["err"]` with its default. -/
def errCountOf (st : Hub) (office race_type usps : String) : Nat :=
  ((alookup st.per_combo_state (comboStateKey office race_type usps)).getD default).err

/-- One queue item together with the oracle for its fetch. -/
abbrev WorkItem := (String × String × String) × List HttpOutcome

/-- The poller `worker()` body (lines 319–328), run over a list of queue
items: `try: _fetch_state(...) finally: q.task_done(); sleep`.  There is no
`except`, so a propagating exception terminates the thread: the triple is
(final state, items for which `task_done` ran, whether the thread died). -/
def runWorker (now : ℚ) : List WorkItem → Hub → Hub × Nat × Bool
  | [], st => (st, 0, false)
  | (item, oracle) :: rest, st =>
      let out := fetchState now oracle item.1 item.2.1 item.2.2 st
      match out.result with
      | .ok _ =>
          let (st', n, died) := runWorker now rest out.st
          (st', n + 1, died)
      | .error _ => (out.st, 1, true)

/-! ## Reader endpoints (spokes): /health, /cache/ru, /cache/p, /log -/

/-- The deep copy `json.loads(json.dumps(_stats))` served by `/health`. -/
structure StatsCopy where
  upstream_calls : Nat
  upstream_bytes : Nat
  errors : Nat
  per_combo_state : List (String × PerKeyStats)
  deriving DecidableEq

/-- The JSON body of `/health`.  `last_cycle_end_utc` keeps the raw
timestamp; the code formats it, or serves `null` when it is falsy (0.0). -/
structure HealthResp where
  hub_mode : Bool
  combos : List String
  states_cached_by_combo : List (String × Nat)
  last_cycle_end_utc : Option ℚ
  stats : StatsCopy
  deriving DecidableEq

/-- A flattened row of `/cache/ru` (county or district shape). -/
structure RuRow where
  state : String
  fips : Option String := none
  district_id : Option String := none
  district_num : Option String := none
  name : String
  candidates : List Cand
  total : Int
  updated : ℚ
  deriving DecidableEq

/-- The JSON body of `/cache/ru`. -/
structure RuResp where
  office : String
  raceTypeId : String
  rows : List RuRow
  deriving DecidableEq

/-- A reader handler's observable effect: its response, the state it leaves
behind, and the number of upstream calls it performs. -/
abbrev ReaderOut (ρ : Type) := ρ × Hub × Nat

/-- `health()`: reads under the lock, builds the body, mutates nothing and
calls upstream zero times. -/
def health (st : Hub) : ReaderOut HealthResp :=
  (⟨true,
    st.cache_by_combo.map (·.1),
    st.cache_by_combo.map (fun p => (p.1, p.2.states.length)),
    if st.last_cycle_end = 0 then none else some st.last_cycle_end,
    ⟨st.upstream_calls, st.upstream_bytes, st.errors, st.per_combo_state⟩⟩,
   st, 0)

/-- Sort key of the county branch of `cache_ru`:
`(r["state"], int(r["fips"])) if r.get("fips","00000").isdigit() else (r["state"], 0)`. -/
def countyRowLe (a b : RuRow) : Bool :=
  let ka : String × Int :=
    (a.state, if pyIsDigit (a.fips.getD "00000") then (pyInt? (a.fips.getD "00000")).getD 0 else 0)
  let kb : String × Int :=
    (b.state, if pyIsDigit (b.fips.getD "00000") then (pyInt? (b.fips.getD "00000")).getD 0 else 0)
  decide (ka.1 < kb.1) || (decide (ka.1 = kb.1) && decide (ka.2 ≤ kb.2))

/-- Sort key of the district branch of `cache_ru`:
`(r["state"], str(r.get("district_id") or ""), str(r.get("district_num") or ""))`. -/
def districtRowLe (a b : RuRow) : Bool :=
  let ka := (a.state, orElse (a.district_id.getD "") "", orElse (a.district_num.getD "") "")
  let kb := (b.state, orElse (b.district_id.getD "") "", orElse (b.district_num.getD "") "")
  decide (ka.1 < kb.1) ||
    (decide (ka.1 = kb.1) &&
      (decide (ka.2.1 < kb.2.1) ||
        (decide (ka.2.1 = kb.2.1) && decide (ka.2.2 ≤ kb.2.2))))

/-- `cache_ru()`: defaults `office=P`, `raceTypeId=G`, flattens the combo's
states into rows and sorts them; reads only, no upstream call. -/
def cacheRu (st : Hub) (officeArg raceTypeArg : Option String) : ReaderOut RuResp :=
  let office := (orElse (officeArg.getD "") "P").toUpper
  let race_type := orElse (raceTypeArg.getD "") "G"
  let combo := comboKey office race_type
  let states := ((alookup st.cache_by_combo combo).getD ⟨[], 0⟩).states
  let rows :=
    if office = "H" then
      sortBy districtRowLe <|
        states.foldr (fun (p : String × StateBlob) acc =>
          (match p.2.data with
           | .districts ds =>
               ds.map (fun (q : String × District) =>
                 { state := p.1, district_id := some q.1,
                   district_num := some q.2.district_num, name := q.2.name,
                   candidates := q.2.candidates, total := q.2.total,
                   updated := p.2.updated : RuRow })
           | .counties _ => []) ++ acc) []
    else
      sortBy countyRowLe <|
        states.foldr (fun (p : String × StateBlob) acc =>
          (match p.2.data with
           | .counties cs =>
               cs.map (fun (q : String × County) =>
                 { state := p.1, fips := some q.1, name := q.2.name,
                   candidates := q.2.candidates, total := q.2.total,
                   updated := p.2.updated : RuRow })
           | .districts _ => []) ++ acc) []
  (⟨office, race_type, rows⟩, st, 0)

/-- `cache_p()`: delegates to `cache_ru` with the same request args. -/
def cacheP (st : Hub) (officeArg raceTypeArg : Option String) : ReaderOut RuResp :=
  cacheRu st officeArg raceTypeArg

/-- `get_log()`: `since = int(args.get("since","0"))` (ValueError → 0), then
the retained events with `seq > since` plus the current `_log_seq`. -/
def getLog (st : Hub) (sinceArg : Option String) : ReaderOut (Nat × List LogEvent) :=
  let since : Int := (pyInt? (sinceArg.getD "0")).getD 0
  ((st.logSeq, st.logRing.filter (fun e => since < (e.seq : Int))), st, 0)

/-! ## Supervisor (src/manual/app/app-reboot1.py) -/

/-- `BACKOFF_MIN` at its default. -/
def BACKOFF_MIN : ℚ := 1

/-- `BACKOFF_MAX` at its default. -/
def BACKOFF_MAX : ℚ := 20

/-- The supervisor's mutable globals plus ghost observation fields:
`relaunches` counts `start_hub` invocations, `sleeps` records the duration of
each `time.sleep(backoff)` inside `restart_hub_with_clear`, `peerStarts`
counts `start_peer_inline` invocations. -/
structure Sup where
  backoff : ℚ
  last_restart_ts : ℚ
  relaunches : Nat
  sleeps : List ℚ
  peerStarts : Nat
  deriving DecidableEq

/-- The supervisor's state at script start. -/
def sup0 : Sup :=
  { backoff := BACKOFF_MIN, last_restart_ts := 0, relaunches := 0,
    sleeps := [], peerStarts := 0 }

/-- `start_hub()`: Popen the hub, set `last_restart_ts`, and reset
`backoff = BACKOFF_MIN`. -/
def startHub (now : ℚ) (st : Sup) : Sup :=
  { st with last_restart_ts := now, backoff := BACKOFF_MIN,
            relaunches := st.relaunches + 1 }

/-- `restart_hub_with_clear()`: clear the port, `start_hub()`,
`time.sleep(backoff)`, then `backoff = min(BACKOFF_MAX, max(BACKOFF_MIN, backoff * 2.0))`. -/
def restartHubWithClear (now : ℚ) (st : Sup) : Sup :=
  let st1 := startHub now st
  let st2 := { st1 with sleeps := st1.sleeps ++ [st1.backoff] }
  { st2 with backoff := min BACKOFF_MAX (max BACKOFF_MIN (st2.backoff * 2)) }

/-- One iteration of `main()`'s while-loop: restart the peer if its health
probe failed, restart the hub if its health probe failed. -/
def supTick (now : ℚ) (peerOk hubOk : Bool) (st : Sup) : Sup :=
  let st1 := if peerOk then st else { st with peerStarts := st.peerStarts + 1 }
  if hubOk then st1 else restartHubWithClear now st1

/-- Run the supervisor loop over a list of probe results `(peerOk, hubOk)`. -/
def runSup (now : ℚ) : List (Bool × Bool) → Sup → Sup
  | [], st => st
  | p :: rest, st => runSup now rest (supTick now p.1 p.2 st)

/-- Number of failed hub probes in a probe trace. -/
def hubDowns (probes : List (Bool × Bool)) : Nat :=
  (probes.filter (fun p => !p.2)).length

/-! ## Snapshot persistence (C8) -/

/-- `CACHE_SNAPSHOT_PATH` at its default. -/
def CACHE_SNAPSHOT_PATH : String := "./temp/p_cache.json"

/-- Observable file-system operations performed by the snapshot code. -/
inductive FsOp where
  | openTrunc (path : String)
  | write (path : String) (data : String)
  | rename (src dst : String)
  deriving DecidableEq

/-- The file operations of `_snapshot_save`:
`with open(CACHE_SNAPSHOT_PATH, "w") as f: json.dump(data, f)` — a direct
truncating open of the final path followed by the serialized write. -/
def snapshotSaveOps (payload : String) : List FsOp :=
  [.openTrunc CACHE_SNAPSHOT_PATH, .write CACHE_SNAPSHOT_PATH payload]

/-- Apply one file operation to a (path ↦ contents) map. -/
def applyFsOp (fs : List (String × String)) : FsOp → List (String × String)
  | .openTrunc p => upd fs p ""
  | .write p d => upd fs p (((alookup fs p).getD "") ++ d)
  | .rename src dst =>
      match alookup fs src with
      | none => fs
      | some d => upd (fs.filter (fun q => q.1 ≠ src)) dst d

/-- Run a list of file operations. -/
def runFs (fs : List (String × String)) : List FsOp → List (String × String)
  | [] => fs
  | op :: rest => runFs (applyFsOp fs op) rest

/-- Modelled from the spec: "written atomically (temp file + rename, or
equivalent)" — an op trace is atomic for `finalPath` when no truncate or
write ever targets `finalPath` directly, so its contents can only change via
a `rename` installing a fully written temp file. -/
def writesAtomicallyViaRename (finalPath : String) (ops : List FsOp) : Bool :=
  ops.all fun op =>
    match op with
    | .openTrunc p => p ≠ finalPath
    | .write p _ => p ≠ finalPath
    | .rename _ _ => true

/-- The coarse action trace of `_hub_loop` (lines 307–343). -/
inductive HubOp where
  | logEv
  | snapLoad
  | enqueueBatch
  | joinQueue
  | setCycleEnd
  | snapSave
  | sleepCycle
  deriving DecidableEq

/-- One poll cycle of `_hub_loop`'s while-loop: log the cycle start, enqueue
the batch, `q.join()`, set `last_cycle_end`, `_snapshot_save()`, log the
cycle end, sleep. -/
def hubCycleTrace : List HubOp :=
  [.logEv, .enqueueBatch, .joinQueue, .setCycleEnd, .snapSave, .logEv, .sleepCycle]

/-- `_hub_loop` run for `n` cycles: the startup log, one `_snapshot_load()`,
then `n` cycles. -/
def hubLoopTrace : Nat → List HubOp
  | 0 => [.logEv, .snapLoad]
  | n + 1 => hubLoopTrace n ++ hubCycleTrace

/-! ## Interleaving model of concurrent `_fetch_state` callers (C1)

`_fetch_state`'s guard protocol under `_cache_lock`:
* lines 238–240 are one atomic section (membership test plus `add`, or the
  early `return False`);
* the body (cooldown check, `requests.get`, parse, publish) runs outside the
  lock — the `fetching` phase below, during which `doFetch` steps model the
  upstream call;
* the `finally` (lines 303–305) atomically discards the key.
-/

/-- Where one caller of `_fetch_state` is in its execution. -/
inductive FetchPhase where
  | start
  | fetching
  | done (owner : Bool)
  deriving DecidableEq

/-- One concurrent caller: its `(combo, usps)` in-flight key, its phase, and
a ghost count of the upstream calls it has made. -/
structure FetchCaller where
  key : String
  phase : FetchPhase
  fetches : Nat
  deriving DecidableEq

/-- The shared `_inflight` set plus all callers. -/
structure FetchSys where
  inflight : List String
  callers : List FetchCaller
  deriving DecidableEq

/-- `n` callers for the given keys, none started. -/
def fetchSysInit (keys : List String) : FetchSys :=
  ⟨[], keys.map (fun k => ⟨k, .start, 0⟩)⟩

/-- Atomic steps of the interleaved system. -/
inductive FetchStep : FetchSys → FetchSys → Prop where
  | acquire (s : FetchSys) (i : Nat) (c : FetchCaller)
      (hc : s.callers[i]? = some c) (hp : c.phase = .start)
      (hk : c.key ∉ s.inflight) :
      FetchStep s ⟨c.key :: s.inflight, s.callers.set i { c with phase := .fetching }⟩
  | reject (s : FetchSys) (i : Nat) (c : FetchCaller)
      (hc : s.callers[i]? = some c) (hp : c.phase = .start)
      (hk : c.key ∈ s.inflight) :
      FetchStep s ⟨s.inflight, s.callers.set i { c with phase := .done false }⟩
  | doFetch (s : FetchSys) (i : Nat) (c : FetchCaller)
      (hc : s.callers[i]? = some c) (hp : c.phase = .fetching) :
      FetchStep s ⟨s.inflight, s.callers.set i { c with fetches := c.fetches + 1 }⟩
  | finish (s : FetchSys) (i : Nat) (c : FetchCaller)
      (hc : s.callers[i]? = some c) (hp : c.phase = .fetching) :
      FetchStep s ⟨s.inflight.erase c.key, s.callers.set i { c with phase := .done true }⟩

/-- States reachable by interleaving callers from an initial system. -/
def FetchReachable : FetchSys → FetchSys → Prop :=
  Relation.ReflTransGen FetchStep

/-- The inductive invariant of the guard protocol. -/
def FetchInv (s : FetchSys) : Prop :=
  (∀ (i : Nat) (c : FetchCaller),
      s.callers[i]? = some c → c.phase = .fetching → c.key ∈ s.inflight) ∧
  (∀ (i j : Nat) (ci cj : FetchCaller),
      s.callers[i]? = some ci → s.callers[j]? = some cj →
      ci.phase = .fetching → cj.phase = .fetching → ci.key = cj.key → i = j) ∧
  s.inflight.Nodup ∧
  (∀ (i : Nat) (c : FetchCaller), s.callers[i]? = some c →
      (c.phase = .start ∨ c.phase = .done false) → c.fetches = 0)

/-- The `seq` values assigned, in order, by a run of `log` appends starting
from `st`. -/
def assignedSeqs (st : Hub) : List (String × String) → List Nat
  | [] => []
  | m :: rest => (st.logSeq + 1) :: assignedSeqs (logMsg st m.1 m.2) rest


/-- Modelled from the spec: "backoff doubles up to `backoffMax` between
relaunch attempts" — each recorded delay after the first equals
`min backoffMax (2 * previous delay)`. -/
def delaysDouble (maxB : ℚ) : List ℚ → Bool
  | a :: b :: rest => decide (b = min maxB (a * 2)) && delaysDouble maxB (b :: rest)
  | _ => true

/-! ## Helper lemmas -/

theorem alookup_upd_self {α : Type} (l : List (String × α)) (k : String) (v : α) :
    alookup (upd l k v) k = some v := by
  induction l with
  | nil => simp [upd, alookup]
  | cons p rest ih =>
      by_cases h : p.1 = k <;> simp [upd, alookup, h, ih]

theorem alookup_upd_ne {α : Type} (l : List (String × α)) (k k' : String) (v : α)
    (h : k ≠ k') : alookup (upd l k v) k' = alookup l k' := by
  induction l with
  | nil => simp [upd, alookup, h]
  | cons p rest ih =>
      by_cases hp : p.1 = k
      · simp [upd, alookup, hp, h]
      · simp [upd, alookup, hp, ih]

theorem fetchInv_init (keys : List String) : FetchInv (fetchSysInit keys) := by
  refine ⟨?_, ?_, ?_, ?_⟩
  · intro i c hc hp
    simp only [fetchSysInit, List.getElem?_map] at hc
    rcases h : keys[i]? with _ | k <;> rw [h] at hc <;> simp at hc
    cases hc; simp [FetchPhase] at hp
  · intro i j ci cj hci hcj hpi hpj hkey
    simp only [fetchSysInit, List.getElem?_map] at hci
    rcases h : keys[i]? with _ | k <;> rw [h] at hci <;> simp at hci
    cases hci; simp [FetchPhase] at hpi
  · simp [fetchSysInit]
  · intro i c hc hp
    simp only [fetchSysInit, List.getElem?_map] at hc
    rcases h : keys[i]? with _ | k <;> rw [h] at hc <;> simp at hc
    cases hc; rfl

theorem fetchInv_step {s s' : FetchSys} (hs : FetchInv s) (h : FetchStep s s') :
    FetchInv s' := by
  obtain ⟨h1, h2, h3, h4⟩ := hs
  cases h with
  | acquire i c hc hp hk =>
      refine ⟨?_, ?_, ?_, ?_⟩
      · intro j cj hcj hpj
        by_cases hij : j = i
        · subst hij
          rw [List.getElem?_set_eq_of_lt _ (List.getElem?_eq_some_iff.mp hc).1] at hcj
          cases hcj; exact List.mem_cons_self _ _
        · rw [List.getElem?_set_ne (by omega)] at hcj
          exact List.mem_cons_of_mem _ (h1 j cj hcj hpj)
      · intro a b ca cb hca hcb hpa hpb hkey
        by_cases hai : a = i <;> by_cases hbi : b = i
        · omega
        · subst hai
          rw [List.getElem?_set_eq_of_lt _ (List.getElem?_eq_some_iff.mp hc).1] at hca
          rw [List.getElem?_set_ne (by omega)] at hcb
          cases hca
          exact absurd (hkey ▸ h1 b cb hcb hpb) hk
        · subst hbi
          rw [List.getElem?_set_eq_of_lt _ (List.getElem?_eq_some_iff.mp hc).1] at hcb
          rw [List.getElem?_set_ne (by omega)] at hca
          cases hcb
          exact absurd (hkey ▸ h1 a ca hca hpa) hk
        · rw [List.getElem?_set_ne (by omega)] at hca
          rw [List.getElem?_set_ne (by omega)] at hcb
          exact h2 a b ca cb hca hcb hpa hpb hkey
      · exact List.Nodup.cons hk h3
      · intro j cj hcj hpj
        by_cases hij : j = i
        · subst hij
          rw [List.getElem?_set_eq_of_lt _ (List.getElem?_eq_some_iff.mp hc).1] at hcj
          cases hcj; simp [FetchPhase] at hpj
        · rw [List.getElem?_set_ne (by omega)] at hcj
          exact h4 j cj hcj hpj
  | reject i c hc hp hk =>
      refine ⟨?_, ?_, h3, ?_⟩
      · intro j cj hcj hpj
        by_cases hij : j = i
        · subst hij
          rw [List.getElem?_set_eq_of_lt _ (List.getElem?_eq_some_iff.mp hc).1] at hcj
          cases hcj; simp [FetchPhase] at hpj
        · rw [List.getElem?_set_ne (by omega)] at hcj
          exact h1 j cj hcj hpj
      · intro a b ca cb hca hcb hpa hpb hkey
        by_cases hai : a = i <;> by_cases hbi : b = i
        · omega
        · subst hai
          rw [List.getElem?_set_eq_of_lt _ (List.getElem?_eq_some_iff.mp hc).1] at hca
          cases hca; simp [FetchPhase] at hpa
        · subst hbi
          rw [List.getElem?_set_eq_of_lt _ (List.getElem?_eq_some_iff.mp hc).1] at hcb
          cases hcb; simp [FetchPhase] at hpb
        · rw [List.getElem?_set_ne (by omega)] at hca
          rw [List.getElem?_set_ne (by omega)] at hcb
          exact h2 a b ca cb hca hcb hpa hpb hkey
      · intro j cj hcj hpj
        by_cases hij : j = i
        · subst hij
          rw [List.getElem?_set_eq_of_lt _ (List.getElem?_eq_some_iff.mp hc).1] at hcj
          cases hcj
          exact h4 _ c hc (Or.inl hp)
        · rw [List.getElem?_set_ne (by omega)] at hcj
          exact h4 j cj hcj hpj
  | doFetch i c hc hp =>
      refine ⟨?_, ?_, h3, ?_⟩
      · intro j cj hcj hpj
        by_cases hij : j = i
        · subst hij
          rw [List.getElem?_set_eq_of_lt _ (List.getElem?_eq_some_iff.mp hc).1] at hcj
          cases hcj; exact h1 _ c hc hp
        · rw [List.getElem?_set_ne (by omega)] at hcj
          exact h1 j cj hcj hpj
      · intro a b ca cb hca hcb hpa hpb hkey
        by_cases hai : a = i <;> by_cases hbi : b = i
        · omega
        · subst hai
          rw [List.getElem?_set_eq_of_lt _ (List.getElem?_eq_some_iff.mp hc).1] at hca
          rw [List.getElem?_set_ne (by omega)] at hcb
          cases hca
          exact h2 _ b c cb hc hcb hp hpb hkey
        · subst hbi
          rw [List.getElem?_set_eq_of_lt _ (List.getElem?_eq_some_iff.mp hc).1] at hcb
          rw [List.getElem?_set_ne (by omega)] at hca
          cases hcb
          exact h2 a _ ca c hca hc hpa hp hkey
        · rw [List.getElem?_set_ne (by omega)] at hca
          rw [List.getElem?_set_ne (by omega)] at hcb
          exact h2 a b ca cb hca hcb hpa hpb hkey
      · intro j cj hcj hpj
        by_cases hij : j = i
        · subst hij
          rw [List.getElem?_set_eq_of_lt _ (List.getElem?_eq_some_iff.mp hc).1] at hcj
          cases hcj
          rcases hpj with hpj | hpj <;> simp [hp] at hpj
        · rw [List.getElem?_set_ne (by omega)] at hcj
          exact h4 j cj hcj hpj
  | finish i c hc hp =>
      refine ⟨?_, ?_, List.Nodup.erase _ h3, ?_⟩
      · intro j cj hcj hpj
        by_cases hij : j = i
        · subst hij
          rw [List.getElem?_set_eq_of_lt _ (List.getElem?_eq_some_iff.mp hc).1] at hcj
          cases hcj; simp [FetchPhase] at hpj
        · rw [List.getElem?_set_ne (by omega)] at hcj
          have hmem := h1 j cj hcj hpj
          have hne : cj.key ≠ c.key := fun heq =>
            hij (h2 j i cj c hcj hc hpj hp heq)
          exact ((List.Nodup.mem_erase_iff h3).mpr ⟨hne, hmem⟩)
      · intro a b ca cb hca hcb hpa hpb hkey
        by_cases hai : a = i <;> by_cases hbi : b = i
        · omega
        · subst hai
          rw [List.getElem?_set_eq_of_lt _ (List.getElem?_eq_some_iff.mp hc).1] at hca
          cases hca; simp [FetchPhase] at hpa
        · subst hbi
          rw [List.getElem?_set_eq_of_lt _ (List.getElem?_eq_some_iff.mp hc).1] at hcb
          cases hcb; simp [FetchPhase] at hpb
        · rw [List.getElem?_set_ne (by omega)] at hca
          rw [List.getElem?_set_ne (by omega)] at hcb
          exact h2 a b ca cb hca hcb hpa hpb hkey
      · intro j cj hcj hpj
        by_cases hij : j = i
        · subst hij
          rw [List.getElem?_set_eq_of_lt _ (List.getElem?_eq_some_iff.mp hc).1] at hcj
          cases hcj
          rcases hpj with hpj | hpj <;> simp [hp] at hpj
        · rw [List.getElem?_set_ne (by omega)] at hcj
          exact h4 j cj hcj hpj

theorem fetchInv_reachable {s0 s : FetchSys} (h0 : FetchInv s0)
    (h : FetchReachable s0 s) : FetchInv s := by
  induction h with
  | refl => exact h0
  | tail _ hstep ih => exact fetchInv_step ih hstep

/-! ## Field-preservation lemmas -/

theorem alookup_append_self {α : Type} (l : List (String × α)) (k : String) (v : α) :
    alookup (l ++ [(k, v)]) k = some ((alookup l k).getD v) := by
  induction l with
  | nil => simp [alookup]
  | cons p rest ih =>
      by_cases h : p.1 = k <;> simp [alookup, h, ih]

theorem logMsg_cache (st : Hub) (l m : String) :
    (logMsg st l m).cache_by_combo = st.cache_by_combo := by simp [logMsg]

theorem logMsg_per (st : Hub) (l m : String) :
    (logMsg st l m).per_combo_state = st.per_combo_state := by simp [logMsg]

theorem logMsg_errors (st : Hub) (l m : String) :
    (logMsg st l m).errors = st.errors := by simp [logMsg]

theorem logMsg_inflight (st : Hub) (l m : String) :
    (logMsg st l m).inflight = st.inflight := by simp [logMsg]

theorem logWarns_cache (ws : List String) (st : Hub) :
    (logWarns st ws).cache_by_combo = st.cache_by_combo := by
  induction ws generalizing st with
  | nil => rfl
  | cons w rest ih => simp [logWarns] at ih ⊢; rw [ih]; simp [logMsg]

theorem logWarns_per (ws : List String) (st : Hub) :
    (logWarns st ws).per_combo_state = st.per_combo_state := by
  induction ws generalizing st with
  | nil => rfl
  | cons w rest ih => simp [logWarns] at ih ⊢; rw [ih]; simp [logMsg]

theorem logWarns_errors (ws : List String) (st : Hub) :
    (logWarns st ws).errors = st.errors := by
  induction ws generalizing st with
  | nil => rfl
  | cons w rest ih => simp [logWarns] at ih ⊢; rw [ih]; simp [logMsg]

theorem logWarns_inflight (ws : List String) (st : Hub) :
    (logWarns st ws).inflight = st.inflight := by
  induction ws generalizing st with
  | nil => rfl
  | cons w rest ih => simp [logWarns] at ih ⊢; rw [ih]; simp [logMsg]

theorem ensure_alookup (st : Hub) (office race_type : String) :
    alookup (ensureComboBucket st office race_type).cache_by_combo
      (comboKey office race_type) =
    some ((alookup st.cache_by_combo (comboKey office race_type)).getD ⟨[], 0⟩) := by
  unfold ensureComboBucket
  cases h : alookup st.cache_by_combo (comboKey office race_type) with
  | none => simp [h, alookup_append_self]
  | some b => simp [h]

theorem ensure_per (st : Hub) (office race_type : String) :
    (ensureComboBucket st office race_type).per_combo_state = st.per_combo_state := by
  unfold ensureComboBucket
  cases h : alookup st.cache_by_combo (comboKey office race_type) <;> simp [h]

theorem ensure_errors (st : Hub) (office race_type : String) :
    (ensureComboBucket st office race_type).errors = st.errors := by
  unfold ensureComboBucket
  cases h : alookup st.cache_by_combo (comboKey office race_type) <;> simp [h]

theorem ensure_inflight (st : Hub) (office race_type : String) :
    (ensureComboBucket st office race_type).inflight = st.inflight := by
  unfold ensureComboBucket
  cases h : alookup st.cache_by_combo (comboKey office race_type) <;> simp [h]

theorem publishFetch_cachedBlob (now : ℚ) (usps office race_type : String)
    (data : BlobData) (boff : String) (nodes : Nat) (st : Hub) :
    cachedBlob (publishFetch now usps office race_type data boff nodes st)
      office race_type usps = some ⟨now, boff, data⟩ := by
  unfold publishFetch cachedBlob
  simp [logMsg_cache, alookup_upd_self, alookup_upd_self]

theorem publishFetch_lastFetch (now : ℚ) (usps office race_type : String)
    (data : BlobData) (boff : String) (nodes : Nat) (st : Hub) :
    lastFetchOf (publishFetch now usps office race_type data boff nodes st)
      office race_type usps = now := by
  unfold publishFetch lastFetchOf
  simp [logMsg_per, alookup_upd_self]

theorem publishFetch_errors (now : ℚ) (usps office race_type : String)
    (data : BlobData) (boff : String) (nodes : Nat) (st : Hub) :
    (publishFetch now usps office race_type data boff nodes st).errors = st.errors := by
  unfold publishFetch
  simp [logMsg_errors, ensure_errors]

theorem publishFetch_inflight (now : ℚ) (usps office race_type : String)
    (data : BlobData) (boff : String) (nodes : Nat) (st : Hub) :
    (publishFetch now usps office race_type data boff nodes st).inflight = st.inflight := by
  unfold publishFetch
  simp [logMsg_inflight, ensure_inflight]


theorem shouldRefetch_inflight_irrelevant (now : ℚ) (st : Hub) (k : String)
    (office race_type usps : String) :
    shouldRefetch now { st with inflight := k :: st.inflight } office race_type usps =
      shouldRefetch now st office race_type usps := rfl

theorem fetchState_failure (st : Hub) (now : ℚ) (usps office race_type : String)
    (fo : HttpOutcome) (rest : List HttpOutcome)
    (hfail : isFailureOutcome fo = true)
    (hin : inflightKey office race_type usps ∉ st.inflight)
    (hcool : MIN_STATE_REFRESH_SEC ≤ now - lastFetchOf st office race_type usps) :
    (fetchState now (fo :: rest) usps office race_type st).result = .ok false ∧
    (fetchState now (fo :: rest) usps office race_type st).attempts = 1 ∧
    (fetchState now (fo :: rest) usps office race_type st).st.cache_by_combo =
      st.cache_by_combo ∧
    (fetchState now (fo :: rest) usps office race_type st).st.errors = st.errors + 1 ∧
    errCountOf (fetchState now (fo :: rest) usps office race_type st).st
      office race_type usps =
      errCountOf st office race_type usps + 1 ∧
    (fetchState now (fo :: rest) usps office race_type st).st.inflight = st.inflight := by
  have hsr : shouldRefetch now
      { st with inflight := inflightKey office race_type usps :: st.inflight }
      office race_type usps = true := by
    simp only [shouldRefetch_inflight_irrelevant, shouldRefetch, decide_eq_true_eq]
    exact hcool
  cases fo with
  | exn =>
      refine ⟨?_, ?_, ?_, ?_, ?_, ?_⟩ <;>
        simp [fetchState, hin, hsr, removeInflight, recordFailure, errCountOf,
              logMsg_cache, logMsg_per, logMsg_errors, logMsg_inflight,
              alookup_upd_self, List.erase_cons_head, lastFetchOf]
  | resp status clen body =>
      have hst : status ≠ 200 := by
        simpa [isFailureOutcome] using hfail
      refine ⟨?_, ?_, ?_, ?_, ?_, ?_⟩ <;>
        simp [fetchState, hin, hsr, hst, removeInflight, recordFailure, errCountOf,
              logMsg_cache, logMsg_per, logMsg_errors, logMsg_inflight,
              alookup_upd_self, List.erase_cons_head, lastFetchOf]

theorem removeInflight_cache (st : Hub) (k : String) :
    (removeInflight st k).cache_by_combo = st.cache_by_combo := rfl

theorem removeInflight_per (st : Hub) (k : String) :
    (removeInflight st k).per_combo_state = st.per_combo_state := rfl

theorem parsePublish_result (now : ℚ) (usps office race_type : String)
    (doc : XDoc) (st2 : Hub) :
    (parsePublish now usps office race_type doc st2).result = .ok true ∧
    (parsePublish now usps office race_type doc st2).attempts = 1 := by
  by_cases hH : office.toUpper = "H" <;> simp [parsePublish, hH]

theorem parsePublish_inflight (now : ℚ) (usps office race_type : String)
    (doc : XDoc) (st2 : Hub) :
    (parsePublish now usps office race_type doc st2).st.inflight = st2.inflight := by
  by_cases hH : office.toUpper = "H" <;>
    simp [parsePublish, hH, publishFetch_inflight, logWarns_inflight]

theorem parsePublish_cachedBlob (now : ℚ) (usps office race_type : String)
    (doc : XDoc) (st2 : Hub) :
    (cachedBlob (parsePublish now usps office race_type doc st2).st
      office race_type usps).isSome := by
  by_cases hH : office.toUpper = "H" <;>
    simp [parsePublish, hH, publishFetch_cachedBlob]

theorem parsePublish_lastFetch (now : ℚ) (usps office race_type : String)
    (doc : XDoc) (st2 : Hub) :
    lastFetchOf (parsePublish now usps office race_type doc st2).st
      office race_type usps = now := by
  by_cases hH : office.toUpper = "H" <;>
    simp [parsePublish, hH, publishFetch_lastFetch]

theorem fetchState_success (st : Hub) (now : ℚ) (usps office race_type : String)
    (clen : Nat) (doc : XDoc) (rest : List HttpOutcome)
    (hin : inflightKey office race_type usps ∉ st.inflight)
    (hcool : MIN_STATE_REFRESH_SEC ≤ now - lastFetchOf st office race_type usps) :
    (fetchState now (.resp 200 clen (some doc) :: rest) usps office race_type st).result =
      .ok true ∧
    ((fetchState now (.resp 200 clen (some doc) :: rest) usps office race_type st).st.inflight =
      st.inflight) ∧
    (cachedBlob (fetchState now (.resp 200 clen (some doc) :: rest) usps office race_type st).st
        office race_type usps).isSome ∧
    lastFetchOf (fetchState now (.resp 200 clen (some doc) :: rest) usps office race_type st).st
      office race_type usps = now := by
  have hsr : shouldRefetch now
      { st with inflight := inflightKey office race_type usps :: st.inflight }
      office race_type usps = true := by
    simp only [shouldRefetch_inflight_irrelevant, shouldRefetch, decide_eq_true_eq]
    exact hcool
  refine ⟨?_, ?_, ?_, ?_⟩ <;>
    simp [fetchState, hin, hsr, removeInflight, cachedBlob, lastFetchOf,
          (parsePublish_result now usps office race_type doc _).1,
          parsePublish_inflight, List.erase_cons_head] <;>
    simp [← cachedBlob.eq_def, ← lastFetchOf.eq_def,
          parsePublish_cachedBlob, parsePublish_lastFetch]

/-! ## Claim theorems -/

/-- **C2**: every reader request (/cache/ru, /cache/p, /health, /log), on any
cache state and any query arguments, performs no upstream fetch (the upstream
counter of the handler is 0), leaves the cache entries and the global stats
counters unchanged (the handler returns exactly the state it was given), and
always returns a response (each handler is a total function producing one);
/health moreover reports exactly the current counters. -/
theorem readers_no_fetch_no_mutation (st : Hub)
    (officeArg raceTypeArg sinceArg : Option String) :
    (cacheRu st officeArg raceTypeArg).2.1 = st ∧
    (cacheRu st officeArg raceTypeArg).2.2 = 0 ∧
    (cacheP st officeArg raceTypeArg).2.1 = st ∧
    (cacheP st officeArg raceTypeArg).2.2 = 0 ∧
    (health st).2.1 = st ∧
    (health st).2.2 = 0 ∧
    (getLog st sinceArg).2.1 = st ∧
    (getLog st sinceArg).2.2 = 0 ∧
    (health st).1.stats =
      ⟨st.upstream_calls, st.upstream_bytes, st.errors, st.per_combo_state⟩ :=
  ⟨rfl, rfl, rfl, rfl, rfl, rfl, rfl, rfl, rfl⟩

/-- **C4**: for a key that is not already in flight, if the time since the
key's recorded `last_fetch` is strictly below `MIN_STATE_REFRESH_SEC` then
`_fetch_state` skips: it logs the skip, makes no upstream attempt, returns
`True`, and leaves everything else unchanged (the final state is exactly the
input state plus the skip log line); if the elapsed time is at least
`MIN_STATE_REFRESH_SEC` it proceeds to make the upstream attempt. -/
theorem cooldown_gate (st : Hub) (now : ℚ) (usps office race_type : String)
    (oracle : List HttpOutcome)
    (hin : inflightKey office race_type usps ∉ st.inflight) :
    (now - lastFetchOf st office race_type usps < MIN_STATE_REFRESH_SEC →
      fetchState now oracle usps office race_type st =
        ⟨.ok true,
         logMsg st "INFO"
           ("Skip " ++ comboKey office race_type ++ " " ++ usps ++
            ": within refresh window (15s)"), 0⟩) ∧
    (MIN_STATE_REFRESH_SEC ≤ now - lastFetchOf st office race_type usps →
      (fetchState now oracle usps office race_type st).attempts = 1) := by
  constructor
  · intro hlt
    have hsr : shouldRefetch now
        { st with inflight := inflightKey office race_type usps :: st.inflight }
        office race_type usps = false := by
      simp only [shouldRefetch_inflight_irrelevant, shouldRefetch,
        decide_eq_false_iff_not, not_le]
      exact hlt
    simp [fetchState, hin, hsr, removeInflight, logMsg, List.erase_cons_head]
  · intro hge
    have hsr : shouldRefetch now
        { st with inflight := inflightKey office race_type usps :: st.inflight }
        office race_type usps = true := by
      simp only [shouldRefetch_inflight_irrelevant, shouldRefetch, decide_eq_true_eq]
      exact hge
    rcases oracle with _ | ⟨fo, rest⟩
    · simp [fetchState, hin, hsr]
    · cases fo with
      | exn => simp [fetchState, hin, hsr]
      | resp status clen body =>
          by_cases hst : status = 200
          · subst hst
            cases body with
            | none => simp [fetchState, hin, hsr]
            | some doc =>
                simp [fetchState, hin, hsr,
                  (parsePublish_result now usps office race_type doc _).2]
          · simp [fetchState, hin, hsr, hst]

/-- Witness for `cooldown_gate` at concrete inputs: with a cold state the
elapsed time 3 is under the window (skip), and 100 is over it (fetch). -/
theorem cooldown_gate_witness :
    (inflightKey "P" "G" "CA" ∉ hub0.inflight) ∧
    ((3 : ℚ) - lastFetchOf hub0 "P" "G" "CA" < MIN_STATE_REFRESH_SEC →
      fetchState 3 [] "CA" "P" "G" hub0 =
        ⟨.ok true,
         logMsg hub0 "INFO"
           ("Skip " ++ comboKey "P" "G" ++ " " ++ "CA" ++
            ": within refresh window (15s)"), 0⟩) ∧
    (MIN_STATE_REFRESH_SEC ≤ (100 : ℚ) - lastFetchOf hub0 "P" "G" "CA" →
      (fetchState 100 [HttpOutcome.exn] "CA" "P" "G" hub0).attempts = 1) :=
  ⟨by simp [hub0],
   (cooldown_gate hub0 3 "CA" "P" "G" [] (by simp [hub0])).1,
   (cooldown_gate hub0 100 "CA" "P" "G" [HttpOutcome.exn] (by simp [hub0])).2⟩


theorem hub0_lastFetch (office race_type usps : String) :
    lastFetchOf hub0 office race_type usps = 0 := rfl

/-- **C3**: a failed refresh (transport error or non-200 status) increments
the key's error counter and the global `errors` counter but leaves
`cache_by_combo` untouched: after a successful publish for the key followed
by a failed refresh attempt, the cache still holds the old record for the
key (it is not empty). -/
theorem stale_survives_failure (st : Hub) (now1 now2 : ℚ)
    (usps office race_type : String) (clen : Nat) (doc : XDoc)
    (fo : HttpOutcome) (hfail : isFailureOutcome fo = true)
    (hin : inflightKey office race_type usps ∉ st.inflight)
    (hcool1 : MIN_STATE_REFRESH_SEC ≤ now1 - lastFetchOf st office race_type usps)
    (hcool2 : MIN_STATE_REFRESH_SEC ≤ now2 - now1) :
    (fetchState now1 [.resp 200 clen (some doc)] usps office race_type st).result =
      .ok true ∧
    (fetchState now2 [fo] usps office race_type
      (fetchState now1 [.resp 200 clen (some doc)] usps office race_type st).st).result =
      .ok false ∧
    (fetchState now2 [fo] usps office race_type
        (fetchState now1 [.resp 200 clen (some doc)] usps office race_type st).st).st.cache_by_combo =
      (fetchState now1 [.resp 200 clen (some doc)] usps office race_type st).st.cache_by_combo ∧
    cachedBlob (fetchState now2 [fo] usps office race_type
        (fetchState now1 [.resp 200 clen (some doc)] usps office race_type st).st).st
        office race_type usps =
      cachedBlob (fetchState now1 [.resp 200 clen (some doc)] usps office race_type st).st
        office race_type usps ∧
    (cachedBlob (fetchState now2 [fo] usps office race_type
        (fetchState now1 [.resp 200 clen (some doc)] usps office race_type st).st).st
        office race_type usps).isSome ∧
    (fetchState now2 [fo] usps office race_type
        (fetchState now1 [.resp 200 clen (some doc)] usps office race_type st).st).st.errors =
      (fetchState now1 [.resp 200 clen (some doc)] usps office race_type st).st.errors + 1 ∧
    errCountOf (fetchState now2 [fo] usps office race_type
        (fetchState now1 [.resp 200 clen (some doc)] usps office race_type st).st).st
        office race_type usps =
      errCountOf (fetchState now1 [.resp 200 clen (some doc)] usps office race_type st).st
        office race_type usps + 1 := by
  obtain ⟨r1, inf1, some1, lf1⟩ :=
    fetchState_success st now1 usps office race_type clen doc [] hin hcool1
  have hin2 : inflightKey office race_type usps ∉
      (fetchState now1 [.resp 200 clen (some doc)] usps office race_type st).st.inflight := by
    rw [inf1]; exact hin
  have hcool2' : MIN_STATE_REFRESH_SEC ≤ now2 -
      lastFetchOf (fetchState now1 [.resp 200 clen (some doc)] usps office race_type st).st
        office race_type usps := by
    rw [lf1]; exact hcool2
  obtain ⟨r2, _, hcache, herr, herrk, _⟩ :=
    fetchState_failure _ now2 usps office race_type fo [] hfail hin2 hcool2'
  have hblob : cachedBlob (fetchState now2 [fo] usps office race_type
      (fetchState now1 [.resp 200 clen (some doc)] usps office race_type st).st).st
      office race_type usps =
    cachedBlob (fetchState now1 [.resp 200 clen (some doc)] usps office race_type st).st
      office race_type usps := by
    unfold cachedBlob
    rw [hcache]
  exact ⟨r1, r2, hcache, hblob, hblob ▸ some1, herr, herrk⟩

/-- Witness for `stale_survives_failure`: publish an empty document for
(P, G, CA) at t=100 into the cold state, then fail with a transport error at
t=200. -/
theorem stale_survives_failure_witness :
    (isFailureOutcome HttpOutcome.exn = true) ∧
    (inflightKey "P" "G" "CA" ∉ hub0.inflight) ∧
    (MIN_STATE_REFRESH_SEC ≤ (100 : ℚ) - lastFetchOf hub0 "P" "G" "CA") ∧
    (MIN_STATE_REFRESH_SEC ≤ (200 : ℚ) - 100) ∧
    ((fetchState 100 [.resp 200 3 (some ⟨[]⟩)] "CA" "P" "G" hub0).result = .ok true ∧
     (fetchState 200 [.exn] "CA" "P" "G"
       (fetchState 100 [.resp 200 3 (some ⟨[]⟩)] "CA" "P" "G" hub0).st).result = .ok false ∧
     (fetchState 200 [.exn] "CA" "P" "G"
         (fetchState 100 [.resp 200 3 (some ⟨[]⟩)] "CA" "P" "G" hub0).st).st.cache_by_combo =
       (fetchState 100 [.resp 200 3 (some ⟨[]⟩)] "CA" "P" "G" hub0).st.cache_by_combo ∧
     cachedBlob (fetchState 200 [.exn] "CA" "P" "G"
         (fetchState 100 [.resp 200 3 (some ⟨[]⟩)] "CA" "P" "G" hub0).st).st "P" "G" "CA" =
       cachedBlob (fetchState 100 [.resp 200 3 (some ⟨[]⟩)] "CA" "P" "G" hub0).st "P" "G" "CA" ∧
     (cachedBlob (fetchState 200 [.exn] "CA" "P" "G"
         (fetchState 100 [.resp 200 3 (some ⟨[]⟩)] "CA" "P" "G" hub0).st).st "P" "G" "CA").isSome ∧
     (fetchState 200 [.exn] "CA" "P" "G"
         (fetchState 100 [.resp 200 3 (some ⟨[]⟩)] "CA" "P" "G" hub0).st).st.errors =
       (fetchState 100 [.resp 200 3 (some ⟨[]⟩)] "CA" "P" "G" hub0).st.errors + 1 ∧
     errCountOf (fetchState 200 [.exn] "CA" "P" "G"
         (fetchState 100 [.resp 200 3 (some ⟨[]⟩)] "CA" "P" "G" hub0).st).st "P" "G" "CA" =
       errCountOf (fetchState 100 [.resp 200 3 (some ⟨[]⟩)] "CA" "P" "G" hub0).st "P" "G" "CA" + 1) :=
  ⟨rfl, by simp [hub0],
   by norm_num [hub0_lastFetch, MIN_STATE_REFRESH_SEC],
   by norm_num [MIN_STATE_REFRESH_SEC],
   stale_survives_failure hub0 100 200 "CA" "P" "G" 3 ⟨[]⟩ HttpOutcome.exn rfl
     (by simp [hub0]) (by norm_num [hub0_lastFetch, MIN_STATE_REFRESH_SEC]) (by norm_num [MIN_STATE_REFRESH_SEC])⟩

theorem fetchState_malformed (st : Hub) (now : ℚ) (usps office race_type : String)
    (clen : Nat) (rest : List HttpOutcome)
    (hin : inflightKey office race_type usps ∉ st.inflight)
    (hcool : MIN_STATE_REFRESH_SEC ≤ now - lastFetchOf st office race_type usps) :
    (fetchState now (.resp 200 clen none :: rest) usps office race_type st).result =
      .error () ∧
    (fetchState now (.resp 200 clen none :: rest) usps office race_type st).st.inflight =
      st.inflight ∧
    (fetchState now (.resp 200 clen none :: rest) usps office race_type st).st.errors =
      st.errors ∧
    (fetchState now (.resp 200 clen none :: rest) usps office race_type st).st.cache_by_combo =
      st.cache_by_combo ∧
    (fetchState now (.resp 200 clen none :: rest) usps office race_type st).st.upstream_calls =
      st.upstream_calls + 1 := by
  have hsr : shouldRefetch now
      { st with inflight := inflightKey office race_type usps :: st.inflight }
      office race_type usps = true := by
    simp only [shouldRefetch_inflight_irrelevant, shouldRefetch, decide_eq_true_eq]
    exact hcool
  refine ⟨?_, ?_, ?_, ?_, ?_⟩ <;>
    simp [fetchState, hin, hsr, removeInflight, List.erase_cons_head]

theorem fetchState_attempts_le_one (now : ℚ) (oracle : List HttpOutcome)
    (usps office race_type : String) (st : Hub) :
    (fetchState now oracle usps office race_type st).attempts ≤ 1 := by
  by_cases hin : inflightKey office race_type usps ∈ st.inflight
  · simp [fetchState, hin]
  · cases hsr : shouldRefetch now
        { st with inflight := inflightKey office race_type usps :: st.inflight }
        office race_type usps
    · simp [fetchState, hin, hsr]
    · rcases oracle with _ | ⟨fo, rest⟩
      · simp [fetchState, hin, hsr]
      · cases fo with
        | exn => simp [fetchState, hin, hsr]
        | resp status clen body =>
            by_cases hst : status = 200
            · subst hst
              cases body with
              | none => simp [fetchState, hin, hsr]
              | some doc =>
                  simp [fetchState, hin, hsr,
                    (parsePublish_result now usps office race_type doc _).2]
            · simp [fetchState, hin, hsr, hst]

/-- **C5 (counterexample)**: the claim predicts that a fetch whose first two
attempts fail and whose third succeeds returns success after retries; the
code performs exactly one `requests.get` per `_fetch_state` call and fails
immediately, so with oracle `[exn, exn, 200-ok]` the result is failure after
one attempt. -/
theorem retry_claim_counterexample :
    ¬ ((fetchState 100 [.exn, .exn, .resp 200 3 (some ⟨[]⟩)] "CA" "P" "G" hub0).result =
        .ok true) ∧
    (fetchState 100 [.exn, .exn, .resp 200 3 (some ⟨[]⟩)] "CA" "P" "G" hub0).attempts = 1 := by
  obtain ⟨r, a, -, -, -, -⟩ :=
    fetchState_failure hub0 100 "CA" "P" "G" .exn [.exn, .resp 200 3 (some ⟨[]⟩)]
      rfl (by simp [hub0]) (by norm_num [hub0_lastFetch, MIN_STATE_REFRESH_SEC])
  exact ⟨by rw [r]; simp, a⟩

/-- **C5 (amended)**: the upstream client makes at most one HTTP attempt per
`_fetch_state` call; on a timeout/transport error or any non-200 status it
records the failure and returns `False` immediately after that single
attempt — there is no retry and no backoff. -/
theorem single_attempt_no_retry (st : Hub) (now : ℚ)
    (usps office race_type : String) (fo : HttpOutcome) (rest : List HttpOutcome)
    (hfail : isFailureOutcome fo = true)
    (hin : inflightKey office race_type usps ∉ st.inflight)
    (hcool : MIN_STATE_REFRESH_SEC ≤ now - lastFetchOf st office race_type usps) :
    (fetchState now (fo :: rest) usps office race_type st).result = .ok false ∧
    (fetchState now (fo :: rest) usps office race_type st).attempts = 1 ∧
    (∀ oracle : List HttpOutcome,
      (fetchState now oracle usps office race_type st).attempts ≤ 1) := by
  obtain ⟨r, a, -, -, -, -⟩ :=
    fetchState_failure st now usps office race_type fo rest hfail hin hcool
  exact ⟨r, a, fun oracle => fetchState_attempts_le_one now oracle usps office race_type st⟩

/-- Witness for `single_attempt_no_retry` on the cold state with a transport
error. -/
theorem single_attempt_no_retry_witness :
    (isFailureOutcome HttpOutcome.exn = true) ∧
    (inflightKey "P" "G" "CA" ∉ hub0.inflight) ∧
    (MIN_STATE_REFRESH_SEC ≤ (100 : ℚ) - lastFetchOf hub0 "P" "G" "CA") ∧
    ((fetchState 100 [HttpOutcome.exn] "CA" "P" "G" hub0).result = .ok false ∧
     (fetchState 100 [HttpOutcome.exn] "CA" "P" "G" hub0).attempts = 1 ∧
     (∀ oracle : List HttpOutcome,
       (fetchState 100 oracle "CA" "P" "G" hub0).attempts ≤ 1)) :=
  ⟨rfl, by simp [hub0], by norm_num [hub0_lastFetch, MIN_STATE_REFRESH_SEC],
   single_attempt_no_retry hub0 100 "CA" "P" "G" HttpOutcome.exn [] rfl
     (by simp [hub0]) (by norm_num [hub0_lastFetch, MIN_STATE_REFRESH_SEC])⟩

/-- **C6 (counterexample)**: the claim predicts the worker survives a
malformed upstream response and continues with the next queue item; in the
code the `ET.fromstring` ParseError is not caught anywhere (the worker has
`try/finally` with no `except`), so the worker thread dies after the first
item and the second item ("NY", well-formed) is never processed. -/
theorem decoder_error_kills_worker_counterexample :
    (runWorker 100
      [(("CA", "P", "G"), [.resp 200 7 none]),
       (("NY", "P", "G"), [.resp 200 7 (some ⟨[]⟩)])] hub0).2.1 = 1 ∧
    (runWorker 100
      [(("CA", "P", "G"), [.resp 200 7 none]),
       (("NY", "P", "G"), [.resp 200 7 (some ⟨[]⟩)])] hub0).2.2 = true ∧
    cachedBlob (runWorker 100
      [(("CA", "P", "G"), [.resp 200 7 none]),
       (("NY", "P", "G"), [.resp 200 7 (some ⟨[]⟩)])] hub0).1 "P" "G" "NY" = none ∧
    (runWorker 100
      [(("CA", "P", "G"), [.resp 200 7 none]),
       (("NY", "P", "G"), [.resp 200 7 (some ⟨[]⟩)])] hub0).1.errors = 0 := by
  obtain ⟨rres, rinf, rerr, rcache, rcalls⟩ :=
    fetchState_malformed hub0 100 "CA" "P" "G" 7 []
      (by simp [hub0]) (by norm_num [hub0_lastFetch, MIN_STATE_REFRESH_SEC])
  refine ⟨?_, ?_, ?_, ?_⟩
  · simp [runWorker, rres]
  · simp [runWorker, rres]
  · simp only [runWorker, rres, cachedBlob, rcache]
    rfl
  · simp only [runWorker, rres, rerr]
    rfl

/-- **C6 (amended)**: upstream-client errors (transport exception, non-200
status) are caught inside `_fetch_state`, recorded as failures, and the
worker continues to the next queue item; but a Decoder (XML parse) error is
not caught — it propagates out of `_fetch_state` (whose `finally` still
removes the in-flight guard) and out of the worker's `try/finally`,
terminating the worker thread, leaving later queue items unprocessed by it,
and never incrementing the error counters. -/
theorem worker_error_boundary (st : Hub) (now : ℚ)
    (usps office race_type : String) (clen : Nat) (rest : List WorkItem)
    (hin : inflightKey office race_type usps ∉ st.inflight)
    (hcool : MIN_STATE_REFRESH_SEC ≤ now - lastFetchOf st office race_type usps) :
    (runWorker now (((usps, office, race_type), [HttpOutcome.exn]) :: rest) st).2.1 =
      (runWorker now rest
        (fetchState now [HttpOutcome.exn] usps office race_type st).st).2.1 + 1 ∧
    (runWorker now (((usps, office, race_type), [HttpOutcome.exn]) :: rest) st).2.2 =
      (runWorker now rest
        (fetchState now [HttpOutcome.exn] usps office race_type st).st).2.2 ∧
    (fetchState now [HttpOutcome.exn] usps office race_type st).st.errors = st.errors + 1 ∧
    (fetchState now [.resp 200 clen none] usps office race_type st).result = .error () ∧
    runWorker now (((usps, office, race_type), [.resp 200 clen none]) :: rest) st =
      ((fetchState now [.resp 200 clen none] usps office race_type st).st, 1, true) ∧
    (fetchState now [.resp 200 clen none] usps office race_type st).st.inflight =
      st.inflight ∧
    (fetchState now [.resp 200 clen none] usps office race_type st).st.errors = st.errors := by
  obtain ⟨r1, -, -, herr1, -, -⟩ :=
    fetchState_failure st now usps office race_type .exn [] rfl hin hcool
  obtain ⟨r2, hinf2, herr2, -, -⟩ :=
    fetchState_malformed st now usps office race_type clen [] hin hcool
  refine ⟨?_, ?_, herr1, r2, ?_, hinf2, herr2⟩ <;>
    simp [runWorker, r1, r2]

/-- Witness for `worker_error_boundary` on the cold state. -/
theorem worker_error_boundary_witness :
    (inflightKey "P" "G" "CA" ∉ hub0.inflight) ∧
    (MIN_STATE_REFRESH_SEC ≤ (100 : ℚ) - lastFetchOf hub0 "P" "G" "CA") ∧
    ((runWorker 100 [(("CA", "P", "G"), [HttpOutcome.exn])] hub0).2.1 =
      (runWorker 100 []
        (fetchState 100 [HttpOutcome.exn] "CA" "P" "G" hub0).st).2.1 + 1 ∧
     (runWorker 100 [(("CA", "P", "G"), [HttpOutcome.exn])] hub0).2.2 =
      (runWorker 100 []
        (fetchState 100 [HttpOutcome.exn] "CA" "P" "G" hub0).st).2.2 ∧
     (fetchState 100 [HttpOutcome.exn] "CA" "P" "G" hub0).st.errors = hub0.errors + 1 ∧
     (fetchState 100 [.resp 200 9 none] "CA" "P" "G" hub0).result = .error () ∧
     runWorker 100 [(("CA", "P", "G"), [.resp 200 9 none])] hub0 =
       ((fetchState 100 [.resp 200 9 none] "CA" "P" "G" hub0).st, 1, true) ∧
     (fetchState 100 [.resp 200 9 none] "CA" "P" "G" hub0).st.inflight = hub0.inflight ∧
     (fetchState 100 [.resp 200 9 none] "CA" "P" "G" hub0).st.errors = hub0.errors) :=
  ⟨by simp [hub0], by norm_num [hub0_lastFetch, MIN_STATE_REFRESH_SEC],
   worker_error_boundary hub0 100 "CA" "P" "G" 9 []
     (by simp [hub0]) (by norm_num [hub0_lastFetch, MIN_STATE_REFRESH_SEC])⟩

/-- **C7 (counterexample)**: the claim predicts doubling delays between
successive relaunches and a reset to `backoffMin` on the next successful
probe.  In the code `start_hub` resets `backoff = BACKOFF_MIN` at every
relaunch *before* the sleep, so three consecutive failed probes sleep
`[1, 1, 1]` (not doubling), and after a failure followed by a successful
probe the counter holds `2`, not `BACKOFF_MIN` (nothing resets it on
success); the "exactly one relaunch" part does hold. -/
theorem backoff_claim_counterexample :
    (runSup 0 [(true, false), (true, false), (true, false)] sup0).sleeps = [1, 1, 1] ∧
    delaysDouble BACKOFF_MAX
      ((runSup 0 [(true, false), (true, false), (true, false)] sup0).sleeps) = false ∧
    (runSup 0 [(true, false), (true, true)] sup0).backoff ≠ BACKOFF_MIN ∧
    (runSup 0 [(true, false), (true, true)] sup0).relaunches = 1 := by
  refine ⟨?_, ?_, ?_, ?_⟩ <;>
    norm_num [runSup, supTick, restartHubWithClear, startHub, sup0,
      delaysDouble, BACKOFF_MIN, BACKOFF_MAX]

/-- **C7 (amended)**: every failed hub probe triggers exactly one relaunch;
`start_hub` resets the backoff to `BACKOFF_MIN` at each relaunch before the
sleep, so the recorded delay after every relaunch is the constant
`BACKOFF_MIN` (no doubling across relaunches), and after at least one
relaunch the stored counter is `min BACKOFF_MAX (max BACKOFF_MIN
(BACKOFF_MIN * 2))`; a successful probe leaves the counter unchanged. -/
theorem supervisor_constant_backoff (now : ℚ) (probes : List (Bool × Bool)) (st : Sup) :
    (runSup now probes st).sleeps =
      st.sleeps ++ List.replicate (hubDowns probes) BACKOFF_MIN ∧
    (runSup now probes st).relaunches = st.relaunches + hubDowns probes ∧
    (hubDowns probes = 0 → (runSup now probes st).backoff = st.backoff) ∧
    (0 < hubDowns probes → (runSup now probes st).backoff =
      min BACKOFF_MAX (max BACKOFF_MIN (BACKOFF_MIN * 2))) := by
  induction probes generalizing st with
  | nil => simp [runSup, hubDowns]
  | cons p rest ih =>
      rcases p with ⟨peerOk, hubOk⟩
      have hpeer : ∀ s : Sup,
          (if peerOk then s else { s with peerStarts := s.peerStarts + 1 }).sleeps = s.sleeps ∧
          (if peerOk then s else { s with peerStarts := s.peerStarts + 1 }).relaunches = s.relaunches ∧
          (if peerOk then s else { s with peerStarts := s.peerStarts + 1 }).backoff = s.backoff := by
        intro s; cases peerOk <;> simp
      obtain ⟨hs, hr, hb⟩ := hpeer st
      cases hubOk with
      | true =>
          obtain ⟨ihs, ihr, ihb0, ihb⟩ :=
            ih (if peerOk then st else { st with peerStarts := st.peerStarts + 1 })
          have hd : hubDowns ((peerOk, true) :: rest) = hubDowns rest := by
            simp [hubDowns, List.filter]
          have hrun : runSup now ((peerOk, true) :: rest) st =
              runSup now rest
                (if peerOk then st else { st with peerStarts := st.peerStarts + 1 }) := by
            simp [runSup, supTick]
          refine ⟨?_, ?_, ?_, ?_⟩
          · rw [hrun, ihs, hs, hd]
          · rw [hrun, ihr, hr, hd]
          · intro h0; rw [hd] at h0; rw [hrun, ihb0 h0, hb]
          · intro hpos; rw [hd] at hpos; rw [hrun]; exact ihb hpos
      | false =>
          obtain ⟨ihs, ihr, ihb0, ihb⟩ :=
            ih (restartHubWithClear now
              (if peerOk then st else { st with peerStarts := st.peerStarts + 1 }))
          have hd : hubDowns ((peerOk, false) :: rest) = hubDowns rest + 1 := by
            simp [hubDowns, List.filter]
          have hres : (restartHubWithClear now
              (if peerOk then st else { st with peerStarts := st.peerStarts + 1 })).sleeps =
              st.sleeps ++ [BACKOFF_MIN] := by
            simp [restartHubWithClear, startHub, hs]
          have hrel : (restartHubWithClear now
              (if peerOk then st else { st with peerStarts := st.peerStarts + 1 })).relaunches =
              st.relaunches + 1 := by
            simp [restartHubWithClear, startHub, hr]
          have hback : (restartHubWithClear now
              (if peerOk then st else { st with peerStarts := st.peerStarts + 1 })).backoff =
              min BACKOFF_MAX (max BACKOFF_MIN (BACKOFF_MIN * 2)) := by
            simp [restartHubWithClear, startHub]
          have hrun : runSup now ((peerOk, false) :: rest) st =
              runSup now rest (restartHubWithClear now
                (if peerOk then st else { st with peerStarts := st.peerStarts + 1 })) := by
            simp [runSup, supTick]
          refine ⟨?_, ?_, ?_, ?_⟩
          · rw [hrun, ihs, hres, hd]
            simp [List.replicate_succ, List.append_assoc]
          · rw [hrun, ihr, hrel, hd]
            omega
          · intro h0; rw [hd] at h0; omega
          · intro hpos
            rw [hrun]
            rcases Nat.eq_zero_or_pos (hubDowns rest) with h0 | hp
            · rw [ihb0 h0, hback]
            · exact ihb hp

/-- Witness for `supervisor_constant_backoff` on a failed probe followed by a
successful one. -/
theorem supervisor_constant_backoff_witness :
    (runSup 0 [(true, false), (true, true)] sup0).sleeps =
      sup0.sleeps ++ List.replicate (hubDowns [(true, false), (true, true)]) BACKOFF_MIN ∧
    (runSup 0 [(true, false), (true, true)] sup0).relaunches =
      sup0.relaunches + hubDowns [(true, false), (true, true)] ∧
    (hubDowns [(true, false), (true, true)] = 0 →
      (runSup 0 [(true, false), (true, true)] sup0).backoff = sup0.backoff) ∧
    (0 < hubDowns [(true, false), (true, true)] →
      (runSup 0 [(true, false), (true, true)] sup0).backoff =
        min BACKOFF_MAX (max BACKOFF_MIN (BACKOFF_MIN * 2))) :=
  supervisor_constant_backoff 0 [(true, false), (true, true)] sup0

/-- **C8 (counterexample)**: the claim predicts an atomic temp-file + rename
snapshot write; `_snapshot_save` opens the final snapshot path directly in
`"w"` mode (truncate) and writes into it, so the trace is not
atomic-via-rename, and a crash right after the truncating open leaves an
empty file observable at the snapshot path (the old snapshot is lost). -/
theorem snapshot_write_not_atomic_counterexample :
    writesAtomicallyViaRename CACHE_SNAPSHOT_PATH (snapshotSaveOps "x") = false ∧
    alookup (runFs [(CACHE_SNAPSHOT_PATH, "old-snapshot")]
      ((snapshotSaveOps "x").take 1)) CACHE_SNAPSHOT_PATH = some "" := by
  constructor
  · rfl
  · rfl

/-- **C8 (amended)**: the snapshot is written at the end of every poll cycle
(one `_snapshot_save` per cycle) and loaded exactly once at startup, but the
write is a direct truncating open of the final path followed by the dump —
not a temp-file + rename — so it is not atomic and a crash mid-write can
leave an empty or partial snapshot file. -/
theorem snapshot_per_cycle_direct_write (payload : String) (n : Nat) :
    snapshotSaveOps payload =
      [.openTrunc CACHE_SNAPSHOT_PATH, .write CACHE_SNAPSHOT_PATH payload] ∧
    writesAtomicallyViaRename CACHE_SNAPSHOT_PATH (snapshotSaveOps payload) = false ∧
    alookup (runFs [(CACHE_SNAPSHOT_PATH, "old-snapshot")]
      ((snapshotSaveOps payload).take 1)) CACHE_SNAPSHOT_PATH = some "" ∧
    (hubLoopTrace n).count HubOp.snapLoad = 1 ∧
    (hubLoopTrace n).count HubOp.snapSave = n := by
  refine ⟨rfl, rfl, rfl, ?_, ?_⟩
  · induction n with
    | zero => rfl
    | succ k ih =>
        simp [hubLoopTrace, hubCycleTrace, List.count_append] at ih ⊢
        simp [ih, List.count_cons]
  · induction n with
    | zero => rfl
    | succ k ih =>
        simp [hubLoopTrace, hubCycleTrace, List.count_append] at ih ⊢
        simp [ih, List.count_cons]

theorem applyLogs_logSeq (msgs : List (String × String)) (st : Hub) :
    (applyLogs msgs st).logSeq = st.logSeq + msgs.length := by
  induction msgs generalizing st with
  | nil => simp [applyLogs]
  | cons m rest ih =>
      have : applyLogs (m :: rest) st = applyLogs rest (logMsg st m.1 m.2) := by
        simp [applyLogs]
      rw [this, ih]
      simp [logMsg]
      omega

theorem assignedSeqs_range (msgs : List (String × String)) (st : Hub) :
    assignedSeqs st msgs = List.range' (st.logSeq + 1) msgs.length := by
  induction msgs generalizing st with
  | nil => simp [assignedSeqs]
  | cons m rest ih =>
      simp only [List.length_cons]
      rw [List.range'_succ]
      simp [assignedSeqs, ih, logMsg]

theorem logMsg_ring_ok (st : Hub) (l m : String)
    (hle : ∀ e ∈ st.logRing, e.seq ≤ st.logSeq)
    (hpw : st.logRing.Pairwise (fun a b => a.seq < b.seq)) :
    (∀ e ∈ (logMsg st l m).logRing, e.seq ≤ (logMsg st l m).logSeq) ∧
    (logMsg st l m).logRing.Pairwise (fun a b => a.seq < b.seq) := by
  constructor
  · intro e he
    simp only [logMsg] at he ⊢
    have hmem : e ∈ st.logRing ++ [(⟨st.logSeq + 1, l, m⟩ : LogEvent)] :=
      List.mem_of_mem_drop he
    rcases List.mem_append.mp hmem with h | h
    · have := hle e h
      omega
    · simp at h
      subst h
      simp
  · have hall : (st.logRing ++ [(⟨st.logSeq + 1, l, m⟩ : LogEvent)]).Pairwise
        (fun a b => a.seq < b.seq) := by
      rw [List.pairwise_append]
      refine ⟨hpw, List.pairwise_singleton _ _, ?_⟩
      intro a ha b hb
      simp at hb
      subst hb
      have := hle a ha
      simp
      omega
    simp only [logMsg]
    exact hall.sublist (List.drop_sublist _ _)

theorem applyLogs_ring_ok (msgs : List (String × String)) (st : Hub)
    (hle : ∀ e ∈ st.logRing, e.seq ≤ st.logSeq)
    (hpw : st.logRing.Pairwise (fun a b => a.seq < b.seq)) :
    (∀ e ∈ (applyLogs msgs st).logRing, e.seq ≤ (applyLogs msgs st).logSeq) ∧
    (applyLogs msgs st).logRing.Pairwise (fun a b => a.seq < b.seq) := by
  induction msgs generalizing st with
  | nil => exact ⟨hle, hpw⟩
  | cons p rest ih =>
      have hstep := logMsg_ring_ok st p.1 p.2 hle hpw
      have : applyLogs (p :: rest) st = applyLogs rest (logMsg st p.1 p.2) := by
        simp [applyLogs]
      rw [this]
      exact ih (logMsg st p.1 p.2) hstep.1 hstep.2

/-- **C9**: replaying any sequence of `log` appends from the cold state, the
assigned `seq` values are exactly `1, 2, …, n` in append order (globally
unique and strictly greater than every previously assigned `seq`); the
retained ring is strictly increasing in `seq`; and for any `since` argument
`/log` returns the current `_log_seq` as `max_seq` together with exactly the
retained events whose `seq` is strictly greater than `since`. -/
theorem log_seq_unique_and_paging (msgs : List (String × String)) :
    assignedSeqs hub0 msgs = List.range' 1 msgs.length ∧
    (applyLogs msgs hub0).logSeq = msgs.length ∧
    (applyLogs msgs hub0).logRing.Pairwise (fun a b => a.seq < b.seq) ∧
    (∀ sinceArg : Option String,
      (getLog (applyLogs msgs hub0) sinceArg).1.1 = (applyLogs msgs hub0).logSeq ∧
      (∀ e : LogEvent, e ∈ (getLog (applyLogs msgs hub0) sinceArg).1.2 ↔
        (e ∈ (applyLogs msgs hub0).logRing ∧
         (pyInt? (sinceArg.getD "0")).getD 0 < (e.seq : Int)))) := by
  refine ⟨?_, ?_, ?_, ?_⟩
  · have := assignedSeqs_range msgs hub0
    simpa [hub0] using this
  · have := applyLogs_logSeq msgs hub0
    simpa [hub0] using this
  · exact (applyLogs_ring_ok msgs hub0 (by simp [hub0]) (by simp [hub0])).2
  · intro sinceArg
    constructor
    · rfl
    · intro e
      simp [getLog, List.mem_filter]

theorem countyCandLoop_votes (st : Hub) (usps fips office race_type : String)
    (cands : List XCand) :
    ((countyCandLoop st usps fips office race_type cands).1.map (fun c => c.votes)) =
      cands.map (fun xc =>
        countyVote st usps fips ((attrD xc.party "").trim) office race_type xc) ∧
    (countyCandLoop st usps fips office race_type cands).2.1 =
      ((countyCandLoop st usps fips office race_type cands).1.map
        (fun c => c.votes)).sum ∧
    (countyCandLoop st usps fips office race_type cands).1.length = cands.length := by
  induction cands with
  | nil => simp [countyCandLoop]
  | cons c rest ih =>
      obtain ⟨ih1, ih2, ih3⟩ := ih
      refine ⟨?_, ?_, ?_⟩ <;> simp [countyCandLoop, ih1, ih2, ih3]

/-- **C10**: for every county-level reporting unit, the vote value stored for
each candidate is `int(VoteCount)` when that attribute parses, and otherwise
the most recently cached vote count for the same state, county FIPS and party
under the same office/raceType combo — or 0 when no cached value exists; the
county total is the sum of the stored candidate values (so substituted values
are included), one stored candidate per input candidate.  The parser never
raises on a non-numeric VoteCount: `parseCountyRu` is a total function and
the only modelled raise point of the pipeline is the `ET.fromstring` call,
before parsing. -/
theorem nonnumeric_votecount_fallback (st : Hub) (usps office race_type : String)
    (ru : XRu) :
    ((parseCountyRu st usps office race_type ru).2.1.candidates.map (fun c => c.votes)) =
      ru.cands.map (fun xc =>
        match pyInt? (rawVote xc) with
        | some v => v
        | none =>
            (getPrevVoteCounty st usps
              (zfill 5 (orElse (attrD ru.fips "") ""))
              ((attrD xc.party "").trim) office race_type).getD 0) ∧
    (parseCountyRu st usps office race_type ru).2.1.total =
      ((parseCountyRu st usps office race_type ru).2.1.candidates.map
        (fun c => c.votes)).sum ∧
    (parseCountyRu st usps office race_type ru).2.1.candidates.length =
      ru.cands.length := by
  obtain ⟨h1, h2, h3⟩ := countyCandLoop_votes st usps
    (zfill 5 (orElse (attrD ru.fips "") "")) office race_type ru.cands
  refine ⟨?_, ?_, ?_⟩ <;>
    simp [parseCountyRu, h1, h2, h3, countyVote]

/-- **C1**: in every state reachable by interleaving concurrent
`_fetch_state` callers, (i) no two callers are simultaneously inside the
guarded fetch section for the same key — at most one upstream fetch per key
is in flight; (ii) a caller that found the guard present (returned `False`
via the `reject` path) has performed no fetch; (iii) when the owning caller
completes — success, failure or exception — the `finally` removes its key
from the in-flight set entirely. -/
theorem single_flight_guard (keys : List String) (s : FetchSys)
    (h : FetchReachable (fetchSysInit keys) s) :
    (∀ (i j : Nat) (ci cj : FetchCaller),
      s.callers[i]? = some ci → s.callers[j]? = some cj →
      ci.phase = .fetching → cj.phase = .fetching → ci.key = cj.key → i = j) ∧
    (∀ (i : Nat) (c : FetchCaller), s.callers[i]? = some c →
      c.phase = .done false → c.fetches = 0) ∧
    (∀ (i : Nat) (c : FetchCaller), s.callers[i]? = some c →
      c.phase = .fetching → c.key ∉ s.inflight.erase c.key) := by
  obtain ⟨h1, h2, h3, h4⟩ := fetchInv_reachable (fetchInv_init keys) h
  exact ⟨h2,
    fun i c hc hp => h4 i c hc (Or.inr hp),
    fun i c hc hp => List.Nodup.not_mem_erase h3⟩

/-- Witness for `single_flight_guard`: two callers for the same key
P:G|CA; the first has acquired the guard and is fetching. -/
theorem single_flight_guard_witness :
    FetchReachable (fetchSysInit ["P:G|CA", "P:G|CA"])
      ⟨["P:G|CA"],
       [⟨"P:G|CA", .fetching, 0⟩, ⟨"P:G|CA", .start, 0⟩]⟩ ∧
    ((∀ (i j : Nat) (ci cj : FetchCaller),
      (⟨["P:G|CA"],
        [⟨"P:G|CA", .fetching, 0⟩, ⟨"P:G|CA", .start, 0⟩]⟩ : FetchSys).callers[i]? = some ci →
      (⟨["P:G|CA"],
        [⟨"P:G|CA", .fetching, 0⟩, ⟨"P:G|CA", .start, 0⟩]⟩ : FetchSys).callers[j]? = some cj →
      ci.phase = .fetching → cj.phase = .fetching → ci.key = cj.key → i = j) ∧
    (∀ (i : Nat) (c : FetchCaller),
      (⟨["P:G|CA"],
        [⟨"P:G|CA", .fetching, 0⟩, ⟨"P:G|CA", .start, 0⟩]⟩ : FetchSys).callers[i]? = some c →
      c.phase = .done false → c.fetches = 0) ∧
    (∀ (i : Nat) (c : FetchCaller),
      (⟨["P:G|CA"],
        [⟨"P:G|CA", .fetching, 0⟩, ⟨"P:G|CA", .start, 0⟩]⟩ : FetchSys).callers[i]? = some c →
      c.phase = .fetching →
      c.key ∉ (⟨["P:G|CA"],
        [⟨"P:G|CA", .fetching, 0⟩, ⟨"P:G|CA", .start, 0⟩]⟩ : FetchSys).inflight.erase c.key)) := by
  have hstep : FetchStep (fetchSysInit ["P:G|CA", "P:G|CA"])
      ⟨["P:G|CA"], [⟨"P:G|CA", .fetching, 0⟩, ⟨"P:G|CA", .start, 0⟩]⟩ := by
    have h := FetchStep.acquire (fetchSysInit ["P:G|CA", "P:G|CA"]) 0
      ⟨"P:G|CA", .start, 0⟩ rfl rfl (by simp [fetchSysInit])
    simpa [fetchSysInit] using h
  exact ⟨Relation.ReflTransGen.single hstep,
    single_flight_guard ["P:G|CA", "P:G|CA"] _ (Relation.ReflTransGen.single hstep)⟩

end ElectionApp
